import Mathlib

/-!
# CraftCom: verification of the rate limiter, command extractor,
# safety validator and chat session against their specification.

Shallow embedding of the Go sources under `pkg/gemini` and `pkg/types`.
Time is modelled as `Int` seconds since an arbitrary epoch (Go `time.Time`
arithmetic at second granularity: `time.Minute` = 60, `24*time.Hour` =
86400).  Counters keep Go's `int` as `Int`.
-/

namespace CraftCom

/-- `ModelConfig` rate-limit fields (src/unnamed/part_002, lines 35-42). -/
structure ModelConfig where
  Name : String
  RPM : Int
  TPM : Int
  RPD : Int
deriving Repr, DecidableEq

/-- `UsageRecord` (models.go lines 42-49); `Error` kept as an optional
message string. -/
structure UsageRecord where
  Timestamp : Int
  RequestType : String
  TokenCount : Int
  Model : String
  Success : Bool
  Error : Option String
deriving Repr, DecidableEq

/-- `RateLimiter` state (models.go lines 30-39).  The mutex serialises
access in Go; here each operation is a pure state transformer. -/
structure RateLimiter where
  requestCount : Int
  tokenCount : Int
  lastReset : Int
  dailyCount : Int
  dailyReset : Int
  config : ModelConfig
  usageHistory : List UsageRecord
deriving Repr, DecidableEq

/-- `NewRateLimiter` (models.go lines 52-59): both reset clocks start at
`time.Now()`, counters at zero. -/
def NewRateLimiter (config : ModelConfig) (now : Int) : RateLimiter :=
  { requestCount := 0
    tokenCount := 0
    lastReset := now
    dailyCount := 0
    dailyReset := now
    config := config
    usageHistory := [] }

/-- `recordUsage` (models.go lines 187-203): append, then evict the oldest
record once length exceeds 1000. -/
def recordUsage (r : RateLimiter) (now : Int) (requestType : String)
    (tokenCount : Int) (success : Bool) (err : Option String) : RateLimiter :=
  let record : UsageRecord :=
    { Timestamp := now, RequestType := requestType, TokenCount := tokenCount
      Model := r.config.Name, Success := success, Error := err }
  let h := r.usageHistory ++ [record]
  { r with usageHistory := if h.length > 1000 then h.tail else h }

/-- Go `now.Truncate(time.Minute)`: round down to a multiple of 60 (Go
rounds down since the zero time; `Int.emod` by a positive divisor is
non-negative, so subtracting it rounds toward negative infinity). -/
def truncMinute (now : Int) : Int := now - now % 60

/-- `resetMinuteCounts` (models.go lines 171-179): acts only once a full
minute has elapsed since `lastReset`. -/
def resetMinuteCounts (r : RateLimiter) (now : Int) : RateLimiter :=
  if now - r.lastReset ≥ 60 then
    recordUsage
      { r with requestCount := 0, tokenCount := 0, lastReset := truncMinute now }
      now "minute_reset" 0 true none
  else r

/-- `resetDailyCounts` (models.go lines 181-185): unconditional. -/
def resetDailyCounts (r : RateLimiter) (now : Int) : RateLimiter :=
  recordUsage { r with dailyCount := 0, dailyReset := now }
    now "daily_reset" 0 true none

/-- The lazy window-rollover phase of `CheckLimit` (models.go lines 68-75):
roll the minute window, then the day window, each under its elapsed-time
guard. -/
def rollWindows (r : RateLimiter) (now : Int) : RateLimiter :=
  let r1 := if now - r.lastReset ≥ 60 then resetMinuteCounts r now else r
  if now - r1.dailyReset ≥ 86400 then resetDailyCounts r1 now else r1

/-- Which ceiling `checkLimitExceeded` reported, with the wait time the
error message carries (`waitTime.Seconds()`, here exact seconds). -/
inductive LimitExceeded where
  | rpm (count limit wait : Int)
  | tpm (count limit wait : Int)
  | rpd (count limit wait : Int)
deriving Repr, DecidableEq

/-- `checkLimitExceeded` (models.go lines 90-110): ceilings tested in the
order RPM, TPM, RPD; the wait time is the time remaining until the
offending window's next reset boundary. -/
def checkLimitExceeded (r : RateLimiter) (now : Int) : Option LimitExceeded :=
  if r.requestCount ≥ r.config.RPM then
    some (.rpm r.requestCount r.config.RPM (r.lastReset + 60 - now))
  else if r.tokenCount ≥ r.config.TPM then
    some (.tpm r.tokenCount r.config.TPM (r.lastReset + 60 - now))
  else if r.dailyCount ≥ r.config.RPD then
    some (.rpd r.dailyCount r.config.RPD (r.dailyReset + 86400 - now))
  else none

/-- `CheckLimit` (models.go lines 62-87): roll windows, test ceilings;
on success increment `requestCount` and `dailyCount`. -/
def CheckLimit (r : RateLimiter) (now : Int) :
    Option LimitExceeded × RateLimiter :=
  let r := rollWindows r now
  match checkLimitExceeded r now with
  | some e => (some e, r)
  | none =>
      (none, { r with requestCount := r.requestCount + 1
                      dailyCount := r.dailyCount + 1 })

/-- `TrackTokens` (models.go lines 113-126): unconditionally add `count`
to `tokenCount`, record usage, then report a breach if the new total has
reached TPM.  No window is rolled. -/
def TrackTokens (r : RateLimiter) (count : Int) (now : Int) :
    Option (Int × Int) × RateLimiter :=
  let r := recordUsage { r with tokenCount := r.tokenCount + count }
    now "token_update" count true none
  if r.tokenCount ≥ r.config.TPM then
    (some (r.tokenCount, r.config.TPM), r)
  else (none, r)

/-- `Reset` (models.go lines 160-168): delegate to the two reset helpers,
then record a manual reset. -/
def RateLimiter.Reset (r : RateLimiter) (now : Int) : RateLimiter :=
  recordUsage (resetDailyCounts (resetMinuteCounts r now) now)
    now "manual_reset" 0 true none

/-! ## Helper lemmas: `recordUsage` touches only `usageHistory` -/

@[simp] theorem recordUsage_requestCount (r : RateLimiter) (now : Int)
    (t : String) (c : Int) (s : Bool) (e : Option String) :
    (recordUsage r now t c s e).requestCount = r.requestCount := rfl

@[simp] theorem recordUsage_tokenCount (r : RateLimiter) (now : Int)
    (t : String) (c : Int) (s : Bool) (e : Option String) :
    (recordUsage r now t c s e).tokenCount = r.tokenCount := rfl

@[simp] theorem recordUsage_lastReset (r : RateLimiter) (now : Int)
    (t : String) (c : Int) (s : Bool) (e : Option String) :
    (recordUsage r now t c s e).lastReset = r.lastReset := rfl

@[simp] theorem recordUsage_dailyCount (r : RateLimiter) (now : Int)
    (t : String) (c : Int) (s : Bool) (e : Option String) :
    (recordUsage r now t c s e).dailyCount = r.dailyCount := rfl

@[simp] theorem recordUsage_dailyReset (r : RateLimiter) (now : Int)
    (t : String) (c : Int) (s : Bool) (e : Option String) :
    (recordUsage r now t c s e).dailyReset = r.dailyReset := rfl

@[simp] theorem recordUsage_config (r : RateLimiter) (now : Int)
    (t : String) (c : Int) (s : Bool) (e : Option String) :
    (recordUsage r now t c s e).config = r.config := rfl

theorem rollWindows_config (r : RateLimiter) (now : Int) :
    (rollWindows r now).config = r.config := by
  simp only [rollWindows, resetMinuteCounts, resetDailyCounts]
  split_ifs <;> simp

theorem rollWindows_counts (r : RateLimiter) (now : Int) :
    ((rollWindows r now).requestCount = r.requestCount ∨
      (rollWindows r now).requestCount = 0) ∧
    ((rollWindows r now).tokenCount = r.tokenCount ∨
      (rollWindows r now).tokenCount = 0) ∧
    ((rollWindows r now).dailyCount = r.dailyCount ∨
      (rollWindows r now).dailyCount = 0) := by
  simp only [rollWindows, resetMinuteCounts, resetDailyCounts]
  split_ifs <;> simp

/-- Test fixture: a small model configuration. -/
def cfgT : ModelConfig := { Name := "test", RPM := 3, TPM := 100, RPD := 5 }

/-- Test fixture: a fresh limiter for `cfgT` created at time 0. -/
def rlT : RateLimiter := NewRateLimiter cfgT 0

/-- C1.  Immediately after every successful admission (`CheckLimit`
returning ok) the invariant `requestCount ≤ RPM`, `tokenCount ≤ TPM`,
`dailyCount ≤ RPD` holds; when a ceiling would be violated the admission
is refused with a rate-limit error, the state is exactly the post-rollover
state with no counter incremented, and no counter becomes negative. -/
theorem checkLimit_admission_invariant (r : RateLimiter) (now : Int) :
    ((CheckLimit r now).1 = none →
      (CheckLimit r now).2.requestCount ≤ r.config.RPM ∧
      (CheckLimit r now).2.tokenCount ≤ r.config.TPM ∧
      (CheckLimit r now).2.dailyCount ≤ r.config.RPD) ∧
    ((CheckLimit r now).1.isSome = true →
      (CheckLimit r now).2 = rollWindows r now ∧
      (0 ≤ r.requestCount → 0 ≤ (CheckLimit r now).2.requestCount) ∧
      (0 ≤ r.tokenCount → 0 ≤ (CheckLimit r now).2.tokenCount) ∧
      (0 ≤ r.dailyCount → 0 ≤ (CheckLimit r now).2.dailyCount)) := by
  have hcfg := rollWindows_config r now
  obtain ⟨hc1, hc2, hc3⟩ := rollWindows_counts r now
  simp only [CheckLimit]
  split
  · rename_i e heq
    constructor
    · intro h; simp at h
    · intro _
      dsimp only
      exact ⟨rfl, fun hge => by omega, fun hge => by omega, fun hge => by omega⟩
  · rename_i heq
    constructor
    · intro _
      simp only [checkLimitExceeded] at heq
      split_ifs at heq with h1 h2 h3
      rw [hcfg] at h1 h2 h3
      dsimp only
      exact ⟨by omega, by omega, by omega⟩
    · intro h; simp at h

/-- Witness for C1 at a concrete admission: a fresh limiter at time 0
admits, and the counters respect the ceilings afterwards. -/
theorem checkLimit_admission_invariant_witness :
    (CheckLimit rlT 0).2.requestCount ≤ rlT.config.RPM ∧
    (CheckLimit rlT 0).2.tokenCount ≤ rlT.config.TPM ∧
    (CheckLimit rlT 0).2.dailyCount ≤ rlT.config.RPD :=
  (checkLimit_admission_invariant rlT 0).1 rfl

/-- A sequence of `CheckLimit` calls at the given times, stopping at the
first refusal (`true` = every call was admitted). -/
def runAdmits (r : RateLimiter) : List Int → Bool × RateLimiter
  | [] => (true, r)
  | t :: ts =>
      match CheckLimit r t with
      | (none, r') => runAdmits r' ts
      | (some _, r') => (false, r')

theorem rollWindows_id (r : RateLimiter) (t : Int)
    (h1 : t - r.lastReset < 60) (h2 : t - r.dailyReset < 86400) :
    rollWindows r t = r := by
  simp only [rollWindows]
  split_ifs <;> first | rfl | omega

theorem checkLimit_in_window (r : RateLimiter) (t : Int)
    (h1 : t - r.lastReset < 60) (h2 : t - r.dailyReset < 86400)
    (hreq : r.requestCount < r.config.RPM)
    (htok : r.tokenCount < r.config.TPM)
    (hday : r.dailyCount < r.config.RPD) :
    CheckLimit r t =
      (none, { r with requestCount := r.requestCount + 1
                      dailyCount := r.dailyCount + 1 }) := by
  simp only [CheckLimit, rollWindows_id r t h1 h2]
  rw [checkLimitExceeded, if_neg (by omega), if_neg (by omega),
    if_neg (by omega)]

theorem checkLimit_rpm_exceeded (r : RateLimiter) (t : Int)
    (h1 : t - r.lastReset < 60) (h2 : t - r.dailyReset < 86400)
    (hreq : r.requestCount ≥ r.config.RPM) :
    CheckLimit r t =
      (some (.rpm r.requestCount r.config.RPM (r.lastReset + 60 - t)), r) := by
  simp only [CheckLimit, rollWindows_id r t h1 h2]
  rw [checkLimitExceeded, if_pos (by omega)]

theorem runAdmits_window (cfg : ModelConfig) (t0 : Int) (ts : List Int)
    (r : RateLimiter) (k : Int)
    (hcfg : r.config = cfg) (hreq : r.requestCount = k)
    (htok : r.tokenCount = 0) (hlr : r.lastReset = t0)
    (hday : r.dailyCount = k) (hdr : r.dailyReset = t0)
    (hk : k + ts.length ≤ cfg.RPM) (htpm : 0 < cfg.TPM)
    (hrpd : cfg.RPM ≤ cfg.RPD)
    (hts : ∀ t ∈ ts, t0 ≤ t ∧ t < t0 + 60) :
    (runAdmits r ts).1 = true ∧
    (runAdmits r ts).2.config = cfg ∧
    (runAdmits r ts).2.requestCount = k + ts.length ∧
    (runAdmits r ts).2.tokenCount = 0 ∧
    (runAdmits r ts).2.lastReset = t0 ∧
    (runAdmits r ts).2.dailyCount = k + ts.length ∧
    (runAdmits r ts).2.dailyReset = t0 := by
  induction ts generalizing r k with
  | nil =>
      exact ⟨rfl, hcfg, by simpa using hreq, htok, hlr,
        by simpa using hday, hdr⟩
  | cons t ts ih =>
      obtain ⟨ht0, ht1⟩ := hts t (List.mem_cons_self t ts)
      have hlen' : ((t :: ts).length : Int) = ts.length + 1 := by
        push_cast [List.length_cons]; ring
      have hstep := checkLimit_in_window r t (by omega) (by omega)
        (by rw [hreq, hcfg]; rw [hlen'] at hk; omega)
        (by rw [htok, hcfg]; omega)
        (by rw [hday, hcfg]; rw [hlen'] at hk; omega)
      have hrest := ih { r with requestCount := r.requestCount + 1
                                dailyCount := r.dailyCount + 1 } (k + 1)
        (by simpa using hcfg) (by simpa using hreq) (by simpa using htok)
        (by simpa using hlr) (by simpa using hday) (by simpa using hdr)
        (by rw [hlen'] at hk; omega)
        (fun t' ht' => hts t' (List.mem_cons_of_mem t ht'))
      simp only [runAdmits, hstep]
      rw [hlen']
      exact ⟨hrest.1, hrest.2.1, by rw [hrest.2.2.1]; ring,
        hrest.2.2.2.1, hrest.2.2.2.2.1, by rw [hrest.2.2.2.2.2.1]; ring,
        hrest.2.2.2.2.2.2⟩

/-- C2.  From a fresh limiter, any `RPM` admissions inside one minute
window all succeed, and a further admission inside the window fails with
the RPM rate-limit error whose reported wait time is exactly the seconds
remaining until the window's reset boundary (hence within them). -/
theorem rateLimiter_monotonicity (cfg : ModelConfig) (t0 : Int)
    (ts : List Int) (tl : Int)
    (hlen : (ts.length : Int) = cfg.RPM)
    (hts : ∀ t ∈ ts, t0 ≤ t ∧ t < t0 + 60)
    (htl0 : t0 ≤ tl) (htl1 : tl < t0 + 60)
    (htpm : 0 < cfg.TPM) (hrpd : cfg.RPM < cfg.RPD) :
    (runAdmits (NewRateLimiter cfg t0) ts).1 = true ∧
    (CheckLimit (runAdmits (NewRateLimiter cfg t0) ts).2 tl).1 =
      some (.rpm cfg.RPM cfg.RPM (t0 + 60 - tl)) ∧
    0 < t0 + 60 - tl ∧ t0 + 60 - tl ≤ 60 := by
  have hall := runAdmits_window cfg t0 ts (NewRateLimiter cfg t0) 0
    rfl rfl rfl rfl rfl rfl (by rw [hlen]; omega) htpm (le_of_lt hrpd) hts
  obtain ⟨hok, hcfg, hreq, htok, hlr, hday, hdr⟩ := hall
  refine ⟨hok, ?_, by omega, by omega⟩
  have hfail := checkLimit_rpm_exceeded (runAdmits (NewRateLimiter cfg t0) ts).2
    tl (by omega) (by omega) (by rw [hreq, hcfg, hlen]; omega)
  rw [hfail, hreq, hcfg, hlr, hlen]
  simp

/-- Witness for C2: the test config (RPM = 3) admits three calls at
times 0, 10, 20 and refuses a fourth at time 30 with a 30-second wait. -/
theorem rateLimiter_monotonicity_witness :
    (runAdmits (NewRateLimiter cfgT 0) [0, 10, 20]).1 = true ∧
    (CheckLimit (runAdmits (NewRateLimiter cfgT 0) [0, 10, 20]).2 30).1 =
      some (.rpm cfgT.RPM cfgT.RPM (0 + 60 - 30)) ∧
    (0 : Int) < (0 : Int) + 60 - 30 ∧ (0 : Int) + 60 - 30 ≤ 60 :=
  rateLimiter_monotonicity cfgT 0 [0, 10, 20] 30 (by decide)
    (by decide) (by decide) (by decide) (by decide) (by decide)

/-- C7.  When the admission check's rollover phase finds a full minute has
elapsed since `lastReset` (and less than 24 hours since `dailyReset`), it
zeroes `requestCount` and `tokenCount` and advances `lastReset` to the
truncated-to-minute boundary of now, leaving `dailyCount` and `dailyReset`
unchanged. -/
theorem rollWindows_minute_rollover (r : RateLimiter) (now : Int)
    (hm : now - r.lastReset ≥ 60) (hd : now - r.dailyReset < 86400) :
    (rollWindows r now).requestCount = 0 ∧
    (rollWindows r now).tokenCount = 0 ∧
    (rollWindows r now).lastReset = truncMinute now ∧
    (rollWindows r now).dailyCount = r.dailyCount ∧
    (rollWindows r now).dailyReset = r.dailyReset := by
  simp only [rollWindows, resetMinuteCounts, resetDailyCounts]
  split_ifs with h1 <;> simp_all
  omega

/-- Witness for C7: one minute after creation, the minute window of the
fresh test limiter rolls while the daily window stays put. -/
theorem rollWindows_minute_rollover_witness :
    (rollWindows rlT 60).requestCount = 0 ∧
    (rollWindows rlT 60).tokenCount = 0 ∧
    (rollWindows rlT 60).lastReset = truncMinute 60 ∧
    (rollWindows rlT 60).dailyCount = rlT.dailyCount ∧
    (rollWindows rlT 60).dailyReset = rlT.dailyReset :=
  rollWindows_minute_rollover rlT 60 (by decide) (by decide)

/-- C8.  `Reset` called less than one minute after `lastReset` leaves
`requestCount`, `tokenCount` and `lastReset` unchanged — only `dailyCount`
is zeroed and `dailyReset` advanced — because `resetMinuteCounts` only
acts after a full minute. -/
theorem reset_within_minute (r : RateLimiter) (now : Int)
    (h : now - r.lastReset < 60) :
    (r.Reset now).requestCount = r.requestCount ∧
    (r.Reset now).tokenCount = r.tokenCount ∧
    (r.Reset now).lastReset = r.lastReset ∧
    (r.Reset now).dailyCount = 0 ∧
    (r.Reset now).dailyReset = now := by
  simp only [RateLimiter.Reset, resetMinuteCounts, resetDailyCounts]
  split_ifs with h1 <;> simp_all
  omega

/-- Witness for C8: resetting the fresh test limiter at time 30 keeps the
minute counters and clock, zeroing only the daily side. -/
theorem reset_within_minute_witness :
    (rlT.Reset 30).requestCount = rlT.requestCount ∧
    (rlT.Reset 30).tokenCount = rlT.tokenCount ∧
    (rlT.Reset 30).lastReset = rlT.lastReset ∧
    (rlT.Reset 30).dailyCount = 0 ∧
    (rlT.Reset 30).dailyReset = 30 :=
  reset_within_minute rlT 30 (by decide)

/-- C9.  `TrackTokens n` never rolls the minute window: it unconditionally
adds `n` to `tokenCount` (the tokens are counted even when a token-limit
breach is then reported), leaves `requestCount`, `lastReset`, `dailyCount`
and `dailyReset` unchanged, and reports a breach exactly when the new
total has reached TPM. -/
theorem trackTokens_frame (r : RateLimiter) (n now : Int) :
    (TrackTokens r n now).2.tokenCount = r.tokenCount + n ∧
    (TrackTokens r n now).2.requestCount = r.requestCount ∧
    (TrackTokens r n now).2.lastReset = r.lastReset ∧
    (TrackTokens r n now).2.dailyCount = r.dailyCount ∧
    (TrackTokens r n now).2.dailyReset = r.dailyReset ∧
    (TrackTokens r n now).1 =
      (if r.tokenCount + n ≥ r.config.TPM then
        some (r.tokenCount + n, r.config.TPM) else none) := by
  simp only [TrackTokens, recordUsage_tokenCount, recordUsage_config]
  split_ifs with h <;> simp_all

/-! ## String utilities mirroring Go's `strings` package (ASCII scope) -/

/-- The backtick character (written via its code point). -/
def tickC : Char := Char.ofNat 96

/-- The apostrophe character (written via its code point). -/
def aposC : Char := Char.ofNat 39

/-- Go `unicode.IsSpace` restricted to ASCII. -/
def isGoSpace (c : Char) : Bool :=
  c = ' ' || c = '\t' || c = '\n' || c = Char.ofNat 11 || c = Char.ofNat 12
    || c = '\r'

/-- Go `strings.TrimSpace` on character lists. -/
def trimSpaceL (l : List Char) : List Char :=
  ((l.dropWhile isGoSpace).reverse.dropWhile isGoSpace).reverse

/-- Go `strings.TrimSpace`. -/
def trimSpace (s : String) : String := String.mk (trimSpaceL s.toList)

/-- Go `strings.HasPrefix`. -/
def hasPrefixS (s pre : String) : Bool := pre.toList.isPrefixOf s.toList

/-- Go `strings.Contains` (substring) on character lists. -/
def containsSubL (hay pat : List Char) : Bool :=
  if pat.isPrefixOf hay then true
  else
    match hay with
    | [] => false
    | _ :: rest => containsSubL rest pat

/-- Go `strings.Contains` (substring). -/
def strContains (hay pat : String) : Bool := containsSubL hay.toList pat.toList

/-- Go `strings.ContainsAny`: does `s` hold any character of `chars`? -/
def containsAnyL (s : List Char) (chars : List Char) : Bool :=
  s.any (fun c => chars.contains c)

/-- Go `strings.ToLower` restricted to ASCII. -/
def toLowerS (s : String) : String := String.mk (s.toList.map Char.toLower)

/-! ## Safety validator (`CommandExecutor.ValidateCommand`,
src/unnamed/part_001 lines 312-342, and `IsPrivilegedOperation`,
src/pkg/types/platform.go lines 111-147).  The Go code branches on
`runtime.GOOS`; the platform is passed explicitly. -/

/-- The fixed deny-list (part_001 lines 319-327); the fork-bomb braces are
written via their code points. -/
def dangerousCommands : List String :=
  ["rm -rf", "rmdir /s", "del /f", "format", "mkfs", ":()\x7b:|:&\x7d;:",
   "dd", "> /dev/sda", "chmod -R 777"]

/-- Windows admin-command prefixes (platform.go lines 121-126). -/
def adminCommands : List String :=
  ["net user", "net localgroup", "reg add", "reg delete", "sc ", "bcdedit"]

/-- Protected system path substrings (platform.go lines 134-138). -/
def criticalPaths : List String :=
  ["/etc/", "/usr/", "/var/", "/bin/", "/sbin/", "C:\\Windows\\",
   "C:\\Program Files\\"]

/-- `IsPrivilegedOperation` (platform.go lines 111-147). -/
def IsPrivilegedOperation (goos : String) (command : String) : Bool :=
  let command := trimSpace command
  if hasPrefixS command "sudo " || hasPrefixS command "su " then true
  else if goos = "windows" &&
      adminCommands.any (fun c => hasPrefixS (toLowerS command) (toLowerS c))
    then true
  else criticalPaths.any (fun p => strContains command p)

/-- The validator's verdict (`ValidateCommand`'s error outcomes). -/
inductive Verdict where
  | ok
  | emptyCommand
  | dangerous (pattern : String)
  | needsPrivileges
deriving Repr, DecidableEq

/-- `ValidateCommand` (part_001 lines 312-342): empty check, then the
case-insensitive deny-list substring scan (first match reported), then the
privilege rule. -/
def ValidateCommand (goos : String) (command : String) : Verdict :=
  let command := trimSpace command
  if command = "" then .emptyCommand
  else
    match dangerousCommands.find?
        (fun d => strContains (toLowerS command) (toLowerS d)) with
    | some d => .dangerous d
    | none =>
        if IsPrivilegedOperation goos command then
          if !hasPrefixS command "sudo " && goos ≠ "windows" then
            .needsPrivileges
          else .ok
        else .ok

/-- C4.  The deny-list check fires before the privilege check: whenever
the trimmed command matches a deny-list entry (case-insensitive
substring), the verdict names that entry on every platform; in particular
`"sudo rm -rf /var/log"` — which is also a privileged operation — is
denied citing `"rm -rf"`. -/
theorem safety_denylist_precedence :
    (∀ goos cmd p,
      dangerousCommands.find?
        (fun d => strContains (toLowerS (trimSpace cmd)) (toLowerS d)) =
          some p →
      trimSpace cmd ≠ "" →
      ValidateCommand goos cmd = .dangerous p) ∧
    (∀ goos, ValidateCommand goos "sudo rm -rf /var/log" =
        .dangerous "rm -rf" ∧
      IsPrivilegedOperation goos "sudo rm -rf /var/log" = true) := by
  constructor
  · intro goos cmd p hfind hne
    simp only [ValidateCommand]
    rw [if_neg hne, hfind]
  · intro goos
    constructor
    · simp only [ValidateCommand]
      rw [if_neg (by decide), show dangerousCommands.find?
          (fun d => strContains (toLowerS (trimSpace "sudo rm -rf /var/log"))
            (toLowerS d)) = some "rm -rf" from by decide]
    · simp only [IsPrivilegedOperation]
      rw [if_pos (by decide)]

/-- Witness for C4 on linux: the deny verdict and the privilege
classification at the concrete command. -/
theorem safety_denylist_precedence_witness :
    ValidateCommand "linux" "sudo rm -rf /var/log" = .dangerous "rm -rf" ∧
    IsPrivilegedOperation "linux" "sudo rm -rf /var/log" = true :=
  safety_denylist_precedence.2 "linux"

/-! ## Command extractor (`Chat.extractCommandAndOutput` and
`isValidCommand`, src/pkg/gemini/chat.go lines 275-373).  The Go regular
expressions are compiled to explicit leftmost-first scans; `.` never
matches a newline. -/

/-- The known command verbs (chat.go lines 349-353). -/
def commonCmds : List String :=
  ["ls", "cd", "pwd", "cp", "mv", "rm", "mkdir", "touch", "cat",
   "echo", "grep", "find", "sed", "awk", "curl", "wget", "git",
   "docker", "make", "gcc", "go", "python", "node", "npm"]

/-- The metacharacter set of the bare-path test (chat.go line 344),
Go literal `" |&;<>()$\x60\\\"\x27"`. -/
def pathMeta : List Char :=
  [' ', '|', '&', ';', '<', '>', '(', ')', '$', tickC, '\\', '"', aposC]

/-- Shell control and redirection operators (chat.go line 363). -/
def shellOps : List Char := ['|', '&', ';', '<', '>', '(', ')']

/-- `isValidCommand` (chat.go lines 337-373). -/
def isValidCommand (cmd : String) : Bool :=
  let c := trimSpace cmd
  if c = "" then false
  else if hasPrefixS c "/" && !containsAnyL c.toList pathMeta then false
  else if commonCmds.any (fun p => hasPrefixS c (p ++ " ") || c = p) then
    true
  else if containsAnyL c.toList shellOps then true
  else if strContains c "$" || containsSubL c.toList [tickC] then true
  else false

/-- The alternatives of the fenced-block opening, in the regex's
preference order: each shell-like tag, then the untagged form. -/
def fenceOpenings : List (List Char) :=
  [("```bash\n").toList, ("```shell\n").toList, ("```zsh\n").toList,
   ("```cmd\n").toList, ("```powershell\n").toList, ("```\n").toList]

/-- One alternative of the code-block regex at a fixed start: the opening
literal, a lazily captured run of non-newline characters, and the closing
newline + fence. -/
def fenceBody (pre : List Char) (s : List Char) : Option (List Char) :=
  if pre.isPrefixOf s then
    let rest := s.drop pre.length
    let body := rest.takeWhile (fun c => c ≠ '\n')
    if ("\n```").toList.isPrefixOf (rest.drop body.length) then some body
    else none
  else none

/-- Try the opening alternatives in preference order at one start. -/
def tryFences : List (List Char) → List Char → Option (List Char)
  | [], _ => none
  | pre :: ps, s =>
      match fenceBody pre s with
      | some b => some b
      | none => tryFences ps s

/-- Leftmost match of the code-block regex
`{three ticks}(?:bash|shell|zsh|cmd|powershell)?\n(.*?)\n{three ticks}`
(chat.go line 285): the capture of the first matching position. -/
def findFence : List Char → Option (List Char)
  | [] => none
  | c :: rest =>
      match tryFences fenceOpenings (c :: rest) with
      | some b => some b
      | none => findFence rest

/-- Leftmost match of the inline-code regex (one backtick, one or more
non-backtick characters, one backtick; chat.go line 297). -/
def findInline : List Char → Option (List Char)
  | [] => none
  | c :: rest =>
      if c = tickC then
        let run := rest.takeWhile (fun x => x ≠ tickC)
        if run.isEmpty then findInline rest
        else if (rest.drop run.length).head? = some tickC then some run
        else findInline rest
      else findInline rest

/-- Go's chained `TrimPrefix(TrimPrefix(TrimPrefix(line, "$"), "#"), ">")`
(chat.go lines 313-317). -/
def stripMarkers (l : List Char) : List Char :=
  let l1 := match l with | '$' :: t => t | _ => l
  let l2 := match l1 with | '#' :: t => t | _ => l1
  match l2 with | '>' :: t => t | _ => l2

/-- The candidate a line contributes to the line-marker strategy
(chat.go lines 308-321): trim, require a `$`/`#`/`>` start, strip the
markers, trim again. -/
def lineCandidate (line : List Char) : Option (List Char) :=
  match trimSpaceL line with
  | [] => none
  | c :: t =>
      if c = '$' || c = '#' || c = '>' then
        some (trimSpaceL (stripMarkers (c :: t)))
      else none

/-- RE2's `\s` class: space, tab, newline, form feed, carriage return. -/
def isRegexSpace (c : Char) : Bool :=
  c = ' ' || c = '\t' || c = '\n' || c = Char.ofNat 12 || c = '\r'

/-- After a matched keyword: `\s*(.+)` with greedy backtracking — skip
whitespace, then capture the non-empty run up to the next newline; if
only whitespace remains, give back the last non-newline character. -/
def kwBody (rest : List Char) : Option (List Char) :=
  let w := rest.takeWhile isRegexSpace
  match rest.drop w.length with
  | c :: t => some ((c :: t).takeWhile (fun x => x ≠ '\n'))
  | [] =>
      match w.reverse.dropWhile (fun c => c = '\n') with
      | c :: _ => some [c]
      | [] => none

/-- The keyword alternatives of the `(?i)(?:run|execute|command):`
pattern. -/
def kwWords : List (List Char) := [("run:").toList, ("execute:").toList,
  ("command:").toList]

/-- Try each keyword (case-insensitively) at one start. -/
def kwTry : List (List Char) → List Char → Option (List Char)
  | [], _ => none
  | kw :: ks, s =>
      if (s.take kw.length).map Char.toLower = kw then
        kwBody (s.drop kw.length)
      else kwTry ks s

/-- Leftmost match of the command-keyword regex (chat.go line 325). -/
def findKw : List Char → Option (List Char)
  | [] => none
  | c :: rest =>
      match kwTry kwWords (c :: rest) with
      | some b => some b
      | none => findKw rest

/-- Pass a strategy's candidate through the validity heuristic. -/
def validated (o : Option String) : Option String :=
  o.bind (fun c => if isValidCommand c then some c else none)

/-- Strategy 1 candidate: trimmed body of the first fenced code block. -/
def fencedCandidate (raw : String) : Option String :=
  (findFence raw.toList).map (fun b => String.mk (trimSpaceL b))

/-- Strategy 2 candidate: trimmed content of the first inline span. -/
def inlineCandidate (raw : String) : Option String :=
  (findInline raw.toList).map (fun b => String.mk (trimSpaceL b))

/-- Strategy 3 candidates: one per `$`/`#`/`>`-marked line, in order. -/
def markerCandidates (raw : String) : List String :=
  ((raw.toList.splitOn '\n').filterMap lineCandidate).map String.mk

/-- Strategy 4 candidate: trimmed capture of the keyword pattern. -/
def keywordCandidate (raw : String) : Option String :=
  (findKw raw.toList).map (fun b => String.mk (trimSpaceL b))

/-- `extractCommandAndOutput` (chat.go lines 275-334): the strategies in
strict order, each candidate gated by `isValidCommand`; with no valid
candidate the command is empty and the raw text is returned unchanged. -/
def extractCommandAndOutput (fullOutput : String) : String × String :=
  match validated (fencedCandidate fullOutput) with
  | some c => (c, fullOutput)
  | none =>
    match validated (inlineCandidate fullOutput) with
    | some c => (c, fullOutput)
    | none =>
      match (markerCandidates fullOutput).find? isValidCommand with
      | some c => (c, fullOutput)
      | none =>
        match validated (keywordCandidate fullOutput) with
        | some c => (c, fullOutput)
        | none => ("", fullOutput)

theorem validated_eq_none (o : Option String)
    (h : ∀ c, o = some c → isValidCommand c = false) :
    validated o = none := by
  cases o with
  | none => rfl
  | some a => simp [validated, h a rfl]

/-- Test fixture: a reply holding both a fenced block and a `$` line. -/
def rawFence : String := "```bash\nls -la\n```\n$ pwd"

/-- C3.  The fenced-code-block strategy has first priority: any valid
fenced candidate is returned as the command; on the input holding both
the fenced block and a `$ pwd` line the extraction returns `ls -la`. -/
theorem extractor_fenced_priority :
    (∀ raw c, fencedCandidate raw = some c → isValidCommand c = true →
      extractCommandAndOutput raw = (c, raw)) ∧
    extractCommandAndOutput rawFence = ("ls -la", rawFence) := by
  constructor
  · intro raw c hf hv
    simp only [extractCommandAndOutput, validated, hf, Option.some_bind, hv,
      if_true]
  · rfl

/-- Witness for C3 at the concrete input. -/
theorem extractor_fenced_priority_witness :
    extractCommandAndOutput rawFence = ("ls -la", rawFence) :=
  extractor_fenced_priority.1 rawFence "ls -la" rfl rfl

/-- C6.  The full output component always is the raw text unmodified;
whenever no strategy yields a candidate passing the validity heuristic the
result is the normal value `("", rawText)` — never an error (the function
is total) — and in particular the bare path input gives an empty
command. -/
theorem extractor_empty_result :
    (∀ raw, (extractCommandAndOutput raw).2 = raw) ∧
    (∀ raw,
      (∀ c, fencedCandidate raw = some c → isValidCommand c = false) →
      (∀ c, inlineCandidate raw = some c → isValidCommand c = false) →
      (∀ c ∈ markerCandidates raw, isValidCommand c = false) →
      (∀ c, keywordCandidate raw = some c → isValidCommand c = false) →
      extractCommandAndOutput raw = ("", raw)) ∧
    extractCommandAndOutput "/usr/local/bin" = ("", "/usr/local/bin") := by
  refine ⟨?_, ?_, rfl⟩
  · intro raw
    unfold extractCommandAndOutput
    split
    · rfl
    · split
      · rfl
      · split
        · rfl
        · split
          · rfl
          · rfl
  · intro raw h1 h2 h3 h4
    have m : (markerCandidates raw).find? isValidCommand = none :=
      List.find?_eq_none.mpr (fun x hx => by simp [h3 x hx])
    simp only [extractCommandAndOutput, validated_eq_none _ h1,
      validated_eq_none _ h2, m, validated_eq_none _ h4]

/-- Witness for C6 at the bare-path input: every strategy's candidate set
is empty there, and the result is the empty command with the raw text. -/
theorem extractor_empty_result_witness :
    extractCommandAndOutput "/usr/local/bin" = ("", "/usr/local/bin") :=
  extractor_empty_result.2.1 "/usr/local/bin"
    (fun _ h => Option.noConfusion h)
    (fun _ h => Option.noConfusion h)
    (fun c hc => absurd hc (List.not_mem_nil c))
    (fun _ h => Option.noConfusion h)

theorem fenceBody_no_newline (pre s b : List Char)
    (h : fenceBody pre s = some b) :
    b.all (fun c => c ≠ '\n') = true := by
  simp only [fenceBody] at h
  split_ifs at h
  injection h with h'
  subst h'
  rw [List.all_eq_true]
  intro c hc
  simpa using List.mem_takeWhile_imp hc

theorem tryFences_no_newline (ps : List (List Char)) (s b : List Char)
    (h : tryFences ps s = some b) :
    b.all (fun c => c ≠ '\n') = true := by
  induction ps with
  | nil => exact Option.noConfusion h
  | cons pre ps ih =>
      simp only [tryFences] at h
      revert h
      split
      · rename_i hfb
        intro h
        injection h with h'
        subst h'
        exact fenceBody_no_newline pre s _ hfb
      · exact ih

/-- Test fixture: a reply whose first fenced block spans two lines. -/
def rawMulti : String := "```bash\ncd /a\nls -la\n```\n$ pwd"

/-- C10.  The code-block regex's dot never matches a newline, so a
captured fenced body never holds a newline — a fenced block with two or
more body lines is never captured; on the concrete two-line block the
fenced strategy yields nothing and the extractor falls through (past the
inline strategy, whose candidate fails the heuristic) to the line-marker
strategy, returning `pwd`. -/
theorem fenced_block_single_line :
    (∀ s b, findFence s = some b → b.all (fun c => c ≠ '\n') = true) ∧
    fencedCandidate rawMulti = none ∧
    extractCommandAndOutput rawMulti = ("pwd", rawMulti) := by
  refine ⟨?_, rfl, rfl⟩
  intro s
  induction s with
  | nil => exact fun b h => Option.noConfusion h
  | cons c rest ih =>
      intro b h
      simp only [findFence] at h
      revert h
      split
      · rename_i htf
        intro h
        injection h with h'
        subst h'
        exact tryFences_no_newline fenceOpenings (c :: rest) _ htf
      · exact fun h => ih b h

/-- Witness for C10: the captured body of a concrete single-line fenced
block indeed holds no newline. -/
theorem fenced_block_single_line_witness :
    (("ls -la").toList.all (fun c => c ≠ '\n')) = true :=
  fenced_block_single_line.1 ("```bash\nls -la\n```").toList
    ("ls -la").toList rfl

/-! ## Chat session (`Chat.Send`, src/pkg/gemini/chat.go lines 79-143).
The backend call is modelled by an explicit `reply` parameter: `none` is
a transport error; `some []` collapses the "no response generated" and
"empty response content" cases (both increment `ErrorCount` and fail);
a non-empty list holds the text parts of the first candidate. -/

/-- `types.SystemInfo`, the fields `Send` reads. -/
structure SystemInfo where
  OS : String
  Shell : String
  WorkingDir : String
deriving Repr, DecidableEq

/-- `ChatContext` (chat.go lines 48-58); the Go field `SystemInfo` is
named `sysInfo` here to avoid clashing with its type. -/
structure ChatContext where
  WorkingDir : String
  LastCommand : String
  LastOutput : String
  Environment : List (String × String)
  sysInfo : SystemInfo
  LastModified : Int
  SessionStart : Int
  CommandCount : Int
  ErrorCount : Int
deriving Repr, DecidableEq

/-- `NewChatContext` (chat.go lines 61-76): `LastCommand`/`LastOutput`
start as Go zero-value empty strings. -/
def NewChatContext (sysInfo : SystemInfo) (now : Int) : ChatContext :=
  { WorkingDir := sysInfo.WorkingDir, LastCommand := "", LastOutput := "",
    Environment := [], sysInfo := sysInfo, LastModified := now,
    SessionStart := now, CommandCount := 0, ErrorCount := 0 }

/-- `types.Response`, the typed fields (`Metadata` is an untyped map of
diagnostics and is not modelled). -/
structure Response where
  Code : String
  FullOutput : String
deriving Repr, DecidableEq

/-- `addContext` (chat.go lines 258-273). -/
def addContext (ctx : ChatContext) (message : String) : String :=
  "Current directory: " ++ ctx.WorkingDir ++
  "\nLast command: " ++ ctx.LastCommand ++
  "\nLast output: " ++ ctx.LastOutput ++
  "\nOS: " ++ ctx.sysInfo.OS ++
  "\nShell: " ++ ctx.sysInfo.Shell ++
  "\n\nUser request: " ++ message

def countWordsAux : List Char → Bool → Nat
  | [], _ => 0
  | c :: rest, inWord =>
      if isGoSpace c then countWordsAux rest false
      else (if inWord then 0 else 1) + countWordsAux rest true

/-- Go `strings.Fields` count: the number of maximal non-whitespace
runs. -/
def countWords (s : String) : Nat := countWordsAux s.toList false

/-- `estimateTokenCount` (chat.go lines 425-433): the float formula
`((words * 1.3) + (chars / 4)) / 2` truncated to int, modelled in exact
arithmetic as `(26*words + 5*chars) / 40`; Go's `len` counts bytes, which
for the ASCII strings at hand equals the character count. -/
def estimateTokenCount (text : String) : Int :=
  (26 * (countWords text : Int) + 5 * (text.length : Int)) / 40

/-- The `Chat` state `Send` mutates: its rate limiter, its conversation
context and its history (history entries as role/text pairs). -/
structure Chat where
  rateLimiter : RateLimiter
  currentContext : ChatContext
  history : List (String × String)
deriving Repr, DecidableEq

/-- The typed failures of `Send`. -/
inductive SendError where
  | rateLimit (e : LimitExceeded)
  | execution (msg : String)
  | tokenLimit (count limit : Int)
deriving Repr, DecidableEq

/-- `Send` (chat.go lines 79-143): rate-limit gate, contextual message,
backend reply, extraction, history and context update, token tracking. -/
def Send (c : Chat) (now : Int) (reply : Option (List String))
    (message : String) : Except SendError Response × Chat :=
  match CheckLimit c.rateLimiter now with
  | (some e, rl) => (.error (.rateLimit e), { c with rateLimiter := rl })
  | (none, rl) =>
    let c1 : Chat := { c with rateLimiter := rl }
    let contextualMessage := addContext c1.currentContext message
    match reply with
    | none =>
        (.error (.execution "failed to generate content"),
          { c1 with currentContext := { c1.currentContext with
              ErrorCount := c1.currentContext.ErrorCount + 1 } })
    | some [] =>
        (.error (.execution "no response generated"),
          { c1 with currentContext := { c1.currentContext with
              ErrorCount := c1.currentContext.ErrorCount + 1 } })
    | some (p :: ps) =>
        let pr := extractCommandAndOutput (String.join (p :: ps))
        let c2 : Chat := { c1 with
          history := c1.history ++
            [("user", contextualMessage), ("model", pr.2)],
          currentContext := { c1.currentContext with
            LastCommand := pr.1, LastModified := now,
            CommandCount := c1.currentContext.CommandCount + 1 } }
        let tokenCount := estimateTokenCount (contextualMessage ++ pr.2)
        match TrackTokens c2.rateLimiter tokenCount now with
        | (some (tc, tpm), rl2) =>
            (.error (.tokenLimit tc tpm), { c2 with rateLimiter := rl2 })
        | (none, rl2) =>
            (.ok { Code := pr.1, FullOutput := pr.2 },
              { c2 with rateLimiter := rl2 })

/-- C5 (amended).  After every successful `Send`, `lastCommand` is set to
the extracted command, `commandCount` is incremented and `lastModified`
advanced — but `lastOutput` is left unchanged (the code never writes it),
and `errorCount` is untouched. -/
theorem send_success_context (c : Chat) (now : Int)
    (reply : Option (List String)) (message : String) (resp : Response)
    (c' : Chat) (h : Send c now reply message = (.ok resp, c')) :
    c'.currentContext.LastCommand = resp.Code ∧
    c'.currentContext.CommandCount = c.currentContext.CommandCount + 1 ∧
    c'.currentContext.LastModified = now ∧
    c'.currentContext.LastOutput = c.currentContext.LastOutput ∧
    c'.currentContext.ErrorCount = c.currentContext.ErrorCount := by
  simp only [Send] at h
  split at h
  · exact absurd h (by simp)
  · split at h
    · exact absurd h (by simp)
    · exact absurd h (by simp)
    · split at h
      · exact absurd h (by simp)
      · injection h with ha hb
        injection ha with ha
        subst ha
        subst hb
        simp

/-- Test fixture: a roomy model configuration for chat tests. -/
def cfgChat : ModelConfig :=
  { Name := "chat", RPM := 10, TPM := 10000, RPD := 100 }

/-- Test fixture: a system identity. -/
def sysT : SystemInfo :=
  { OS := "linux", Shell := "bash", WorkingDir := "/home/u" }

/-- Test fixture: a context whose `LastOutput` holds a stale value from
before the exchange. -/
def ctxStale : ChatContext :=
  { NewChatContext sysT 0 with LastOutput := "stale" }

/-- Test fixture: a chat session with a fresh limiter and the stale
context. -/
def chatT : Chat :=
  { rateLimiter := NewRateLimiter cfgChat 0
    currentContext := ctxStale
    history := [] }

/-- Test fixture: a backend reply carrying one inline-code command. -/
def replyT : Option (List String) := some ["`ls -la`"]

set_option maxRecDepth 10000 in
/-- C5 counterexample: this `Send` succeeds (full output of the exchange
is the backtick-quoted reply), yet `lastOutput` afterwards still holds
the pre-exchange value `"stale"`, which differs from that output — so the
claim that `lastOutput` is mutated to reflect every successful exchange
fails on the code. -/
theorem send_lastOutput_not_mutated :
    (Send chatT 0 replyT "list files").1 =
      .ok { Code := "ls -la", FullOutput := "`ls -la`" } ∧
    (Send chatT 0 replyT "list files").2.currentContext.LastOutput =
      "stale" ∧
    (("stale" : String) == "`ls -la`") = false :=
  ⟨rfl, rfl, rfl⟩

set_option maxRecDepth 10000 in
/-- Witness for C5 at the concrete exchange. -/
theorem send_success_context_witness :
    (Send chatT 0 replyT "list files").2.currentContext.LastCommand =
      "ls -la" ∧
    (Send chatT 0 replyT "list files").2.currentContext.CommandCount =
      chatT.currentContext.CommandCount + 1 ∧
    (Send chatT 0 replyT "list files").2.currentContext.LastModified = 0 ∧
    (Send chatT 0 replyT "list files").2.currentContext.LastOutput =
      chatT.currentContext.LastOutput ∧
    (Send chatT 0 replyT "list files").2.currentContext.ErrorCount =
      chatT.currentContext.ErrorCount :=
  send_success_context chatT 0 replyT "list files"
    { Code := "ls -la", FullOutput := "`ls -la`" }
    (Send chatT 0 replyT "list files").2 rfl

end CraftCom
